import Mathlib

/-
Verification of the ancestor-search utilities and the id accessor of the
HTMLElement wrapper class (src/src/type/AnyElement.ts).

The embedding models a DOM element by its three observable attributes read by
the code (the id attribute, the tag name, and the class-token list backing
classList) together with its parent chain, which is finite and acyclic by
construction.  JavaScript runtime faults are made explicit: the method
getAncestorByClassRecursive evaluates the expression
  "contains" in element[property]
and in JavaScript the binary in operator applied to a string primitive raises
a TypeError, so the embedded function returns in the Except monad.
-/

namespace FrontendTS

/-- The observable attributes of a DOM element that the code reads:
the id attribute (reflected as a string, empty when unset), the tag name,
and the class tokens backing the classList property. -/
structure ElemData where
  id : String
  tagName : String
  classList : List String
deriving DecidableEq, Repr

/-- A DOM element together with its parent chain.  A root element has no
parent (parentElement is null); a child element has exactly one parent.
The chain is finite and acyclic by construction, matching the external
tree model the component assumes. -/
inductive Elem where
  | root (data : ElemData)
  | child (data : ElemData) (parent : Elem)
deriving DecidableEq, Repr

/-- The attributes of the element itself. -/
def Elem.data : Elem → ElemData
  | .root d => d
  | .child d _ => d

/-- Translation of element.parentElement: none models the null parent of
the tree root. -/
def Elem.parentElement : Elem → Option Elem
  | .root _ => none
  | .child _ p => some p

/-- The number of elements on the chain from this element up to and
including the root. -/
def Elem.depth : Elem → Nat
  | .root _ => 1
  | .child _ p => 1 + p.depth

/-- The property key passed by the three public entry points to
getAncestorByClassRecursive: the string "id", "tagName" or "classList". -/
inductive PropKey where
  | id
  | tagName
  | classList
deriving DecidableEq, Repr

/-- The JavaScript value of element[property]: a string primitive for the
id and tagName properties, a DOMTokenList object for classList. -/
inductive PropValue where
  | str (s : String)
  | tokenList (tokens : List String)
deriving DecidableEq, Repr

/-- Translation of element[property]. -/
def Elem.getProp (e : Elem) : PropKey → PropValue
  | .id => .str e.data.id
  | .tagName => .str e.data.tagName
  | .classList => .tokenList e.data.classList

/-- Translation of the test typeof element[property] == "string". -/
def PropValue.typeofIsString : PropValue → Bool
  | .str _ => true
  | .tokenList _ => false

/-- Translation of element[property] == condition.  Both operands are
strings whenever this is evaluated (the source guards it with the typeof
test and the && operator short-circuits), so loose equality is string
equality; the tokenList case is unreachable under that guard. -/
def PropValue.looseEqString : PropValue → String → Bool
  | .str s, c => s == c
  | .tokenList _, _ => false

/-- The JavaScript runtime faults the traversal can raise. -/
inductive JSError where
  | typeError
deriving DecidableEq, Repr

/-- Translation of the expression "contains" in element[property].  On a
DOMTokenList object the member exists, giving true; on a string primitive
the JavaScript in operator raises a TypeError. -/
def PropValue.containsIn : PropValue → Except JSError Bool
  | .str _ => .error .typeError
  | .tokenList _ => .ok true

/-- Translation of the call element[property].contains(condition) on a
DOMTokenList: token membership.  The string case is unreachable because
the call is guarded by the in test, which faults on strings. -/
def PropValue.containsCall : PropValue → String → Bool
  | .str _, _ => false
  | .tokenList ts, c => ts.contains c

/-- Translation of the private method getAncestorByClassRecursive.  The
wrapper object new HTMLElement(element) is identified with the element it
holds.  A normal return is Except.ok (some found) or Except.ok none; a
raised JavaScript fault is Except.error. -/
def getAncestorByClassRecursive (condition : String) (property : PropKey)
    (element : Elem) : Except JSError (Option Elem) :=
  let v := element.getProp property
  if v.typeofIsString && v.looseEqString condition then
    .ok (some element)
  else
    match v.containsIn with
    | .error err => .error err
    | .ok hasMember =>
      if hasMember && v.containsCall condition then
        .ok (some element)
      else
        match element with
        | .root _ => .ok none
        | .child _ p => getAncestorByClassRecursive condition property p

/-- Translation of the public method getAncestorById. -/
def getAncestorById (id : String) (element : Elem) : Except JSError (Option Elem) :=
  getAncestorByClassRecursive id .id element

/-- Translation of the public method getAncestorByTag. -/
def getAncestorByTag (tag : String) (element : Elem) : Except JSError (Option Elem) :=
  getAncestorByClassRecursive tag .tagName element

/-- Translation of the public method getAncestorByClass. -/
def getAncestorByClass (className : String) (element : Elem) : Except JSError (Option Elem) :=
  getAncestorByClassRecursive className .classList element

/-- Fuel-indexed variant of getAncestorByClassRecursive, mirroring the
unbounded recursion of the source call stack: none means the fuel ran out
before the recursion finished. -/
def getAncestorFuel (condition : String) (property : PropKey) :
    Nat → Elem → Option (Except JSError (Option Elem))
  | 0, _ => none
  | fuel + 1, element =>
    let v := element.getProp property
    if v.typeofIsString && v.looseEqString condition then
      some (.ok (some element))
    else
      match v.containsIn with
      | .error err => some (.error err)
      | .ok hasMember =>
        if hasMember && v.containsCall condition then
          some (.ok (some element))
        else
          match element with
          | .root _ => some (.ok none)
          | .child _ p => getAncestorFuel condition property fuel p

/-- State-passing translation of getAncestorByClassRecursive: the tree
state (the chain reachable from the element) is threaded through the call
explicitly.  The source performs no assignment during the traversal, so
every branch passes the state through unchanged and the recursive case
rebuilds the element around the state returned by the recursive call. -/
def runSearch (condition : String) (property : PropKey) (element : Elem) :
    Except JSError (Option Elem) × Elem :=
  let v := element.getProp property
  if v.typeofIsString && v.looseEqString condition then
    (.ok (some element), element)
  else
    match v.containsIn with
    | .error err => (.error err, element)
    | .ok hasMember =>
      if hasMember && v.containsCall condition then
        (.ok (some element), element)
      else
        match element with
        | .root d => (.ok none, .root d)
        | .child d p =>
          let r := runSearch condition property p
          (r.1, .child d r.2)

/-- Translation of the public id getter: return this.element.id || null.
A string is falsy exactly when it is empty, so the getter yields null
exactly for the empty id attribute. -/
def idGet (elementId : String) : Option String :=
  if elementId = "" then none else some elementId

/-- Translation of the public id setter: this.element.id = id ?? "". -/
def idSet (value : Option String) : String :=
  value.getD ""

/-- The chain of the depth-scenario of the spec: root, then A with tag DIV,
then B with tag SPAN, then C with tag P, tag names stored upper-case as the
HTML platform convention prescribes. -/
def chainRoot : Elem := .root ⟨"", "HTML", []⟩

/-- Element A of the spec chain, tag DIV. -/
def chainA : Elem := .child ⟨"a", "DIV", []⟩ chainRoot

/-- Element B of the spec chain, tag SPAN. -/
def chainB : Elem := .child ⟨"b", "SPAN", []⟩ chainA

/-- Element C of the spec chain, tag P. -/
def chainC : Elem := .child ⟨"c", "P", []⟩ chainB

/-- The state-passing traversal agrees with the direct one and returns the
tree state unchanged: the source performs no assignment on the walk. -/
theorem runSearch_eq (condition : String) (property : PropKey) (e : Elem) :
    runSearch condition property e
      = (getAncestorByClassRecursive condition property e, e) := by
  induction e with
  | root d =>
    cases property <;>
      simp [runSearch, getAncestorByClassRecursive, Elem.getProp, Elem.data,
        PropValue.typeofIsString, PropValue.looseEqString, PropValue.containsIn,
        PropValue.containsCall] <;>
      split <;> rfl
  | child d p ih =>
    cases property <;>
      simp [runSearch, getAncestorByClassRecursive, Elem.getProp, Elem.data,
        PropValue.typeofIsString, PropValue.looseEqString, PropValue.containsIn,
        PropValue.containsCall, ih] <;>
      split <;> rfl

/-- C1: the claim that for every starting node and every condition the
search returns the first matching node or the null marker fails on the
code: a ById search from a root element whose id differs from the searched
value raises a TypeError instead of returning the null marker. -/
theorem ancestor_search_by_id_mismatch_raises :
    getAncestorById "b" (Elem.root ⟨"a", "DIV", ["foo"]⟩)
      = .error .typeError := rfl

/-- C2: the claim that a search over a finite chain with no matching node
returns the null marker and raises nothing fails on the code: a ByTag
search over a two-element chain with no matching tag raises a TypeError at
the first node. -/
theorem no_match_by_tag_search_raises :
    getAncestorByTag "em" (Elem.child ⟨"", "P", []⟩ (Elem.root ⟨"", "DIV", []⟩))
      = .error .typeError := rfl

/-- C3: on the chain root, A tag DIV, B tag SPAN, C tag P with upper-case
platform tag names, getAncestorByTag from C raises a TypeError for the
searched tags div, DIV and section alike, instead of returning A
respectively the null marker as the claim states. -/
theorem tag_chain_search_raises :
    getAncestorByTag "div" chainC = .error .typeError ∧
    getAncestorByTag "DIV" chainC = .error .typeError ∧
    getAncestorByTag "section" chainC = .error .typeError := ⟨rfl, rfl, rfl⟩

/-- C4: whenever the inspected attribute of the starting node is a string
that differs from the searched value, the search faults with a TypeError
when it evaluates the in operator of the class-token membership branch on
that string primitive, instead of proceeding to the parent or returning
the null marker.  This holds for getAncestorById on the id attribute and
for getAncestorByTag on the tag name. -/
theorem string_property_mismatch_faults (e : Elem) (idCond tagCond : String) :
    (e.data.id ≠ idCond → getAncestorById idCond e = .error .typeError) ∧
    (e.data.tagName ≠ tagCond → getAncestorByTag tagCond e = .error .typeError) := by
  constructor
  · intro h
    have hb : (e.data.id == idCond) = false := beq_eq_false_iff_ne.mpr h
    cases e <;>
      simp_all [getAncestorById, getAncestorByClassRecursive, Elem.getProp, Elem.data,
        PropValue.typeofIsString, PropValue.looseEqString, PropValue.containsIn]
  · intro h
    have hb : (e.data.tagName == tagCond) = false := beq_eq_false_iff_ne.mpr h
    cases e <;>
      simp_all [getAncestorByTag, getAncestorByClassRecursive, Elem.getProp, Elem.data,
        PropValue.typeofIsString, PropValue.looseEqString, PropValue.containsIn]

/-- Witness for C4 at a concrete node: id a searched as b, tag DIV searched
as span, both fault with a TypeError. -/
theorem string_property_mismatch_faults_witness :
    ((Elem.root ⟨"a", "DIV", []⟩).data.id ≠ "b" ∧
      getAncestorById "b" (Elem.root ⟨"a", "DIV", []⟩) = .error .typeError) ∧
    ((Elem.root ⟨"a", "DIV", []⟩).data.tagName ≠ "span" ∧
      getAncestorByTag "span" (Elem.root ⟨"a", "DIV", []⟩) = .error .typeError) :=
  ⟨⟨by decide,
    (string_property_mismatch_faults (Elem.root ⟨"a", "DIV", []⟩) "b" "span").1 (by decide)⟩,
   ⟨by decide,
    (string_property_mismatch_faults (Elem.root ⟨"a", "DIV", []⟩) "b" "span").2 (by decide)⟩⟩

/-- C5: a node whose class tokens are exactly foo and bar is returned
itself by a ByClass search for bar and skipped in favour of its parent by
a ByClass search for baz; in general a ByClass search matches a node
exactly when the condition value is one token of its class-token list,
recursing to the parent otherwise and returning the null marker at a
non-matching root. -/
theorem ancestor_by_class_token_membership :
    (∀ (i t : String) (p : Elem),
        getAncestorByClass "bar" (Elem.child ⟨i, t, ["foo", "bar"]⟩ p)
          = Except.ok (some (Elem.child ⟨i, t, ["foo", "bar"]⟩ p)) ∧
        getAncestorByClass "baz" (Elem.child ⟨i, t, ["foo", "bar"]⟩ p)
          = getAncestorByClass "baz" p) ∧
    (∀ (c : String) (d : ElemData) (p : Elem),
        getAncestorByClass c (Elem.child d p)
          = if c ∈ d.classList then Except.ok (some (Elem.child d p))
            else getAncestorByClass c p) ∧
    (∀ (c : String) (d : ElemData),
        getAncestorByClass c (Elem.root d)
          = if c ∈ d.classList then Except.ok (some (Elem.root d))
            else Except.ok none) := by
  refine ⟨fun i t p => ⟨?_, ?_⟩, fun c d p => ?_, fun c d => ?_⟩
  · simp [getAncestorByClass, getAncestorByClassRecursive, Elem.getProp, Elem.data,
      PropValue.typeofIsString, PropValue.looseEqString, PropValue.containsIn,
      PropValue.containsCall]
  · simp [getAncestorByClass, getAncestorByClassRecursive, Elem.getProp, Elem.data,
      PropValue.typeofIsString, PropValue.looseEqString, PropValue.containsIn,
      PropValue.containsCall]
  · by_cases h : c ∈ d.classList <;>
      simp [getAncestorByClass, getAncestorByClassRecursive, Elem.getProp, Elem.data,
        PropValue.typeofIsString, PropValue.looseEqString, PropValue.containsIn,
        PropValue.containsCall, h]
  · by_cases h : c ∈ d.classList <;>
      simp [getAncestorByClass, getAncestorByClassRecursive, Elem.getProp, Elem.data,
        PropValue.typeofIsString, PropValue.looseEqString, PropValue.containsIn,
        PropValue.containsCall, h]

/-- C6: for every node whose id attribute equals x, getAncestorById
searching for x returns that node itself: the search is inclusive of the
starting node. -/
theorem ancestor_by_id_inclusive (e : Elem) (h : e.data.id = "x") :
    getAncestorById "x" e = .ok (some e) := by
  have hb : (e.data.id == "x") = true := beq_iff_eq.mpr h
  cases e <;>
    simp_all [getAncestorById, getAncestorByClassRecursive, Elem.getProp, Elem.data,
      PropValue.typeofIsString, PropValue.looseEqString]

/-- Witness for C6 at a concrete node with id x. -/
theorem ancestor_by_id_inclusive_witness :
    (Elem.child ⟨"x", "DIV", ["nav"]⟩ chainRoot).data.id = "x" ∧
      getAncestorById "x" (Elem.child ⟨"x", "DIV", ["nav"]⟩ chainRoot)
        = .ok (some (Elem.child ⟨"x", "DIV", ["nav"]⟩ chainRoot)) :=
  ⟨by decide, ancestor_by_id_inclusive (Elem.child ⟨"x", "DIV", ["nav"]⟩ chainRoot) (by decide)⟩

/-- C7: the recursion terminates on every finite acyclic chain: a call
stack bounded by the depth of the starting node suffices, because each
recursive call moves to the parent and the walk stops at a node with no
parent.  The fuel-indexed variant never runs out of fuel when the fuel is
at least the depth and computes the same answer as the direct function. -/
theorem ancestor_search_terminates (condition : String) (property : PropKey)
    (e : Elem) (fuel : Nat) (h : e.depth ≤ fuel) :
    getAncestorFuel condition property fuel e
      = some (getAncestorByClassRecursive condition property e) := by
  induction e generalizing fuel with
  | root d =>
    cases fuel with
    | zero => simp [Elem.depth] at h
    | succ f =>
      cases property <;>
        simp [getAncestorFuel, getAncestorByClassRecursive, Elem.getProp, Elem.data,
          PropValue.typeofIsString, PropValue.looseEqString, PropValue.containsIn,
          PropValue.containsCall] <;>
        split <;> rfl
  | child d p ih =>
    cases fuel with
    | zero => simp [Elem.depth] at h
    | succ f =>
      have hp : p.depth ≤ f := by
        simp [Elem.depth] at h
        omega
      cases property <;>
        simp [getAncestorFuel, getAncestorByClassRecursive, Elem.getProp, Elem.data,
          PropValue.typeofIsString, PropValue.looseEqString, PropValue.containsIn,
          PropValue.containsCall, ih f hp] <;>
        split <;> rfl

/-- Witness for C7: a chain of depth two searched ByClass with fuel two. -/
theorem ancestor_search_terminates_witness :
    (Elem.child ⟨"c", "P", []⟩ (Elem.root ⟨"", "HTML", ["page"]⟩)).depth ≤ 2 ∧
      getAncestorFuel "page" PropKey.classList 2
          (Elem.child ⟨"c", "P", []⟩ (Elem.root ⟨"", "HTML", ["page"]⟩))
        = some (getAncestorByClassRecursive "page" PropKey.classList
            (Elem.child ⟨"c", "P", []⟩ (Elem.root ⟨"", "HTML", ["page"]⟩))) :=
  ⟨by decide,
   ancestor_search_terminates "page" PropKey.classList
     (Elem.child ⟨"c", "P", []⟩ (Elem.root ⟨"", "HTML", ["page"]⟩)) 2 (by decide)⟩

/-- C8: the search mutates nothing: the state-passing traversal returns
the tree state unchanged, and repeating the identical call on the state
returned by the first call yields the identical outcome. -/
theorem ancestor_search_pure_and_idempotent (condition : String)
    (property : PropKey) (e : Elem) :
    (runSearch condition property e).2 = e ∧
      runSearch condition property ((runSearch condition property e).2)
        = runSearch condition property e := by
  simp [runSearch_eq]

/-- C9: the claim that a search from a non-matching root returns the null
marker after examining one node fails on the code for the string-valued
conditions: a ById search at a non-matching root raises a TypeError
instead of returning the null marker. -/
theorem root_no_match_raises_instead_of_absent :
    getAncestorById "main" (Elem.root ⟨"r", "HTML", []⟩) = .error .typeError := rfl

/-- C10: the id getter yields null exactly when the underlying id
attribute is the empty string, and the setter stores the empty string for
null, so a read after setting null or the empty string yields null. -/
theorem id_accessor_normalizes_empty :
    (∀ s : String, idGet s = none ↔ s = "") ∧
    idGet (idSet none) = none ∧ idGet (idSet (some "")) = none := by
  refine ⟨fun s => ?_, by simp [idGet, idSet], by simp [idGet, idSet]⟩
  by_cases h : s = "" <;> simp [idGet, h]

end FrontendTS
